import Mathlib

/-!
Verification of the IELTS answer-equivalence checker.

The checker is a pure string-function library.  We embed it shallowly:
JavaScript strings become `List Char`, each source function becomes an
executable Lean definition carrying the same name, and the regular
expressions of the source are translated into explicit character-level
matchers with the same (anchored, greedy/backtracking) semantics.
-/

namespace Ielts

/-- Character codes of the JavaScript `\s` class (also used by `trim`). -/
def jsWsB (c : Char) : Bool :=
  c.toNat == 9 || c.toNat == 10 || c.toNat == 11 || c.toNat == 12 ||
  c.toNat == 13 || c.toNat == 32 || c.toNat == 160 || c.toNat == 5760 ||
  (8192 ≤ c.toNat && c.toNat ≤ 8202) || c.toNat == 8232 || c.toNat == 8233 ||
  c.toNat == 8239 || c.toNat == 8287 || c.toNat == 12288 || c.toNat == 65279

/-- ASCII-scope model of JavaScript `toLowerCase` (the inputs the claims
concern are ASCII; on A-Z it adds 32, elsewhere it is the identity). -/
def jsLower (c : Char) : Char :=
  if 65 ≤ c.toNat ∧ c.toNat ≤ 90 then Char.ofNat (c.toNat + 32) else c

/-- JavaScript `\d`: ASCII digits. -/
def isDigitB (c : Char) : Bool := 48 ≤ c.toNat && c.toNat ≤ 57

/-- JavaScript `\w`: ASCII letters, digits and underscore. -/
def isWordB (c : Char) : Bool :=
  (65 ≤ c.toNat && c.toNat ≤ 90) || (97 ≤ c.toNat && c.toNat ≤ 122) ||
  isDigitB c || c.toNat == 95

/-- Abbreviation used to state claims on string literals. -/
def str (s : String) : List Char := s.toList

/-- The apostrophe character. -/
def apos : Char := Char.ofNat 39

/-- `.replace(/['']/g, "'")` as a character map: the two typographic
single quotes U+2018/U+2019 become the ASCII apostrophe. -/
def aposFix (c : Char) : Char :=
  if c.toNat = 8216 ∨ c.toNat = 8217 then apos else c

/-- `.replace(/[""]/g, '"')` as a character map: the two typographic
double quotes U+201C/U+201D become the ASCII double quote. -/
def quotFix (c : Char) : Char :=
  if c.toNat = 8220 ∨ c.toNat = 8221 then Char.ofNat 34 else c

/-- JavaScript `String.prototype.trim`: drop whitespace from both ends. -/
def jsTrim (l : List Char) : List Char :=
  ((l.dropWhile jsWsB).reverse.dropWhile jsWsB).reverse

/-- Replace each whitespace character by a plain space (first half of
`.replace(/\s+/g, ' ')`). -/
def wsFix (c : Char) : Char := if jsWsB c then ' ' else c

/-- Collapse consecutive spaces to a single space (second half of
`.replace(/\s+/g, ' ')`, after `wsFix` has made every run a space run). -/
def squeezeSp : List Char → List Char
  | [] => []
  | [c] => [c]
  | a :: b :: rest =>
    if a = ' ' ∧ b = ' ' then squeezeSp (b :: rest)
    else a :: squeezeSp (b :: rest)

/-- `.replace(/\s+/g, ' ')`: each maximal whitespace run becomes one space. -/
def collapseWs (l : List Char) : List Char := squeezeSp (l.map wsFix)

/-- `normalizeString`: lower-case, trim, collapse inner whitespace, then
unify typographic apostrophes and quotes. -/
def normalizeString (s : List Char) : List Char :=
  ((collapseWs (jsTrim (s.map jsLower))).map aposFix).map quotFix

/-- `removeAllSpaces`: `.replace(/\s+/g, '')`. -/
def removeAllSpaces (s : List Char) : List Char := s.filter (fun c => !jsWsB c)

/-- JavaScript `String.prototype.split(sep)` for a one-character
separator (`"".split(sep)` is `[""]`, separators at the ends produce
empty fields). -/
def splitOnChar (sep : Char) : List Char → List (List Char)
  | [] => [[]]
  | c :: cs =>
    if c = sep then [] :: splitOnChar sep cs
    else
      match splitOnChar sep cs with
      | [] => [[c]]
      | t :: ts => (c :: t) :: ts

/-! ### A generic global regex replace

`scanGo f fuel s` scans `s` left to right; at each position `f` either
recognises a match (returning the replacement text and the input that
remains after the matched text) or fails, in which case the current
character is copied and scanning resumes one position later.  This is
the semantics of `String.prototype.replace` with the `g` flag for the
patterns of the source (all of which match at least one character).
The fuel is instantiated with the length of the input, which is enough
because every match consumes at least one character. -/
def scanGo (f : List Char → Option (List Char × List Char)) :
    Nat → List Char → List Char
  | _, [] => []
  | 0, s => s
  | fuel + 1, c :: cs =>
    match f (c :: cs) with
    | some (r, t) => r ++ scanGo f fuel t
    | none => c :: scanGo f fuel cs

/-- Global replace driven by a matcher `f` (see `scanGo`). -/
def jsReplaceAll (f : List Char → Option (List Char × List Char))
    (s : List Char) : List Char :=
  scanGo f s.length s

/-- Matcher for `/a\.?m\.?/gi`, replacement `"am"`. -/
def tryAm : List Char → Option (List Char × List Char)
  | c :: cs =>
    if jsLower c = 'a' then
      match cs with
      | d :: m :: d2 :: rest =>
        if d = '.' ∧ jsLower m = 'm' then
          if d2 = '.' then some (str "am", rest)
          else some (str "am", d2 :: rest)
        else if jsLower d = 'm' then
          if m = '.' then some (str "am", d2 :: rest)
          else some (str "am", m :: d2 :: rest)
        else none
      | [d, m] =>
        if d = '.' ∧ jsLower m = 'm' then some (str "am", [])
        else if jsLower d = 'm' then
          if m = '.' then some (str "am", []) else some (str "am", [m])
        else none
      | [d] => if jsLower d = 'm' then some (str "am", []) else none
      | [] => none
    else none
  | [] => none

/-- Matcher for `/p\.?m\.?/gi`, replacement `"pm"`. -/
def tryPm : List Char → Option (List Char × List Char)
  | c :: cs =>
    if jsLower c = 'p' then
      match cs with
      | d :: m :: d2 :: rest =>
        if d = '.' ∧ jsLower m = 'm' then
          if d2 = '.' then some (str "pm", rest)
          else some (str "pm", d2 :: rest)
        else if jsLower d = 'm' then
          if m = '.' then some (str "pm", d2 :: rest)
          else some (str "pm", m :: d2 :: rest)
        else none
      | [d, m] =>
        if d = '.' ∧ jsLower m = 'm' then some (str "pm", [])
        else if jsLower d = 'm' then
          if m = '.' then some (str "pm", []) else some (str "pm", [m])
        else none
      | [d] => if jsLower d = 'm' then some (str "pm", []) else none
      | [] => none
    else none
  | [] => none

/-- Matcher for `/o'?clock/gi`, replacement `""`. -/
def tryOclock (s : List Char) : Option (List Char × List Char) :=
  match s with
  | o :: rest =>
    if jsLower o = 'o' then
      match rest with
      | q :: c :: l :: o2 :: c2 :: k :: t =>
        if q = apos ∧ jsLower c = 'c' ∧ jsLower l = 'l' ∧ jsLower o2 = 'o' ∧
            jsLower c2 = 'c' ∧ jsLower k = 'k' then some ([], t)
        else if jsLower q = 'c' ∧ jsLower c = 'l' ∧ jsLower l = 'o' ∧
            jsLower o2 = 'c' ∧ jsLower c2 = 'k' then some ([], k :: t)
        else none
      | [q, c, l, o2, c2] =>
        if jsLower q = 'c' ∧ jsLower c = 'l' ∧ jsLower l = 'o' ∧
            jsLower o2 = 'c' ∧ jsLower c2 = 'k' then some ([], [])
        else none
      | _ => none
    else none
  | [] => none

/-- Matcher for `/double\s*(\d)/gi`, replacement `"$1$1"`. -/
def tryDouble (s : List Char) : Option (List Char × List Char) :=
  match s with
  | c1 :: c2 :: c3 :: c4 :: c5 :: c6 :: rest =>
    if jsLower c1 = 'd' ∧ jsLower c2 = 'o' ∧ jsLower c3 = 'u' ∧
        jsLower c4 = 'b' ∧ jsLower c5 = 'l' ∧ jsLower c6 = 'e' then
      match rest.dropWhile jsWsB with
      | d :: t => if isDigitB d then some ([d, d], t) else none
      | [] => none
    else none
  | _ => none

/-- Matcher for `/triple\s*(\d)/gi`, replacement `"$1$1$1"`. -/
def tryTriple (s : List Char) : Option (List Char × List Char) :=
  match s with
  | c1 :: c2 :: c3 :: c4 :: c5 :: c6 :: rest =>
    if jsLower c1 = 't' ∧ jsLower c2 = 'r' ∧ jsLower c3 = 'i' ∧
        jsLower c4 = 'p' ∧ jsLower c5 = 'l' ∧ jsLower c6 = 'e' then
      match rest.dropWhile jsWsB with
      | d :: t => if isDigitB d then some ([d, d, d], t) else none
      | [] => none
    else none
  | _ => none

/-! ### Lookup tables (values of the source records; keys are not used
by the matching code, so only `Object.values` is modelled) -/

/-- `NUMBER_WORDS` equivalence sets. -/
def NUMBER_WORDS : List (List (List Char)) :=
  [[str "zero", str "o", str "oh", str "0"],
   [str "one", str "1"],
   [str "two", str "2"],
   [str "three", str "3"],
   [str "four", str "4"],
   [str "five", str "5"],
   [str "six", str "6"],
   [str "seven", str "7"],
   [str "eight", str "8"],
   [str "nine", str "9"],
   [str "ten", str "10"],
   [str "eleven", str "11"],
   [str "twelve", str "12"],
   [str "thirteen", str "13"],
   [str "fourteen", str "14"],
   [str "fifteen", str "15"],
   [str "sixteen", str "16"],
   [str "seventeen", str "17"],
   [str "eighteen", str "18"],
   [str "nineteen", str "19"],
   [str "twenty", str "20"],
   [str "thirty", str "30"],
   [str "forty", str "40"],
   [str "fifty", str "50"],
   [str "sixty", str "60"],
   [str "seventy", str "70"],
   [str "eighty", str "80"],
   [str "ninety", str "90"],
   [str "hundred", str "one hundred", str "100"],
   [str "thousand", str "one thousand", str "1000", str "1,000"],
   [str "million", str "one million", str "1000000", str "1,000,000"]]

/-- `MEASUREMENT_VARIATIONS` equivalence sets. -/
def MEASUREMENT_VARIATIONS : List (List (List Char)) :=
  [[str "km", str "kms", str "kilometre", str "kilometres", str "kilometer", str "kilometers"],
   [str "m", str "metre", str "metres", str "meter", str "meters"],
   [str "cm", str "centimetre", str "centimetres", str "centimeter", str "centimeters"],
   [str "mm", str "millimetre", str "millimetres", str "millimeter", str "millimeters"],
   [str "kg", str "kgs", str "kilogram", str "kilograms", str "kilo", str "kilos"],
   [str "g", str "gram", str "grams"],
   [str "mg", str "milligram", str "milligrams"],
   [str "l", str "litre", str "litres", str "liter", str "liters"],
   [str "ml", str "millilitre", str "millilitres", str "milliliter", str "milliliters"],
   [str "ft", str "foot", str "feet"],
   [str "in", str "inch", str "inches"],
   [str "mi", str "mile", str "miles"],
   [str "lb", str "lbs", str "pound", str "pounds"],
   [str "oz", str "ounce", str "ounces"]]

/-- `CURRENCY_VARIATIONS` equivalence sets. -/
def CURRENCY_VARIATIONS : List (List (List Char)) :=
  [[str "$", str "dollar", str "dollars", str "usd"],
   [str "£", str "pound", str "pounds", str "gbp"],
   [str "€", str "euro", str "euros", str "eur"],
   [str "¥", str "yen", str "jpy"]]

/-! ### Category matchers -/

/-- `matchTime`: strip whitespace, periods and colons, normalise the
am/pm spellings (a no-op on the already-dot-free input) and drop the
word "o'clock", then compare. -/
def timeKey (s : List Char) : List Char :=
  jsReplaceAll tryOclock (jsReplaceAll tryPm (jsReplaceAll tryAm
    ((removeAllSpaces (normalizeString s)).filter
      (fun c => !(c == '.' || c == ':')))))

/-- `matchTime` of the source. -/
def matchTime (userAnswer correctAnswer : List Char) : Bool :=
  timeKey userAnswer == timeKey correctAnswer

/-- The inner `normalizeNum` of `matchNumber`: lower-case, drop commas,
drop all whitespace (the final `.trim()` of the source is then the
identity but is kept). -/
def normalizeNum (s : List Char) : List Char :=
  jsTrim (((s.map jsLower).filter (fun c => !(c == ','))).filter
    (fun c => !jsWsB c))

/-- `matchNumber` of the source. -/
def matchNumber (userAnswer correctAnswer : List Char) : Bool :=
  let user := normalizeNum userAnswer
  let correct := normalizeNum correctAnswer
  user == correct ||
    NUMBER_WORDS.any fun words =>
      (words.any fun w => w == user) && (words.any fun w => w == correct)

/-- Characters of the class `[\d,.]`. -/
def isNumChB (c : Char) : Bool := isDigitB c || c == ',' || c == '.'

/-- Greedy capture of `/^([\d,.]+)\s*(\w+)$/` : `measGo ds rest j` tries
group lengths `j, j-1, …, 1` for the number (the engine tries the
longest first), where `ds` is the maximal `[\d,.]` prefix and `rest`
the remainder of the subject. -/
def measGo (ds rest : List Char) : Nat → Option (List Char × List Char)
  | 0 => none
  | j + 1 =>
    let num := ds.take (j + 1)
    let after := (ds.drop (j + 1) ++ rest).dropWhile jsWsB
    if !after.isEmpty && after.all isWordB then some (num, after)
    else measGo ds rest j

/-- Full-match capture of `/^([\d,.]+)\s*(\w+)$/` (number, unit). -/
def measParse (s : List Char) : Option (List Char × List Char) :=
  measGo (s.takeWhile isNumChB) (s.dropWhile isNumChB)
    (s.takeWhile isNumChB).length

/-- `matchMeasurement` of the source: both operands must fit
`<number><optional-space><unit-word>`; the loop over the variation sets
returns `numsMatch` at the first set containing both units, `false` if
none does. -/
def matchMeasurement (userAnswer correctAnswer : List Char) : Bool :=
  match measParse (normalizeString userAnswer),
      measParse (normalizeString correctAnswer) with
  | some (userNum, userUnit), some (correctNum, correctUnit) =>
    let numsMatch := (userNum.filter (fun c => !(c == ','))) ==
      (correctNum.filter (fun c => !(c == ',')))
    if MEASUREMENT_VARIATIONS.any fun variations =>
        variations.contains (userUnit.map jsLower) &&
        variations.contains (correctUnit.map jsLower)
    then numsMatch else false
  | _, _ => false

/-- Currency symbols `[£$€¥]`. -/
def isCurrencySym (c : Char) : Bool :=
  c == '£' || c == '$' || c == '€' || c == '¥'

/-- Full-match capture of `/^([£$€¥]?)\s*([\d,.]+)\s*([a-z]*)?$/`
(symbol, amount, word). -/
def currencyParse (s : List Char) :
    Option (List Char × List Char × List Char) :=
  let (sym, rest) :=
    match s with
    | c :: cs => if isCurrencySym c then ([c], cs) else ([], s)
    | [] => ([], s)
  let rest1 := rest.dropWhile jsWsB
  let amount := rest1.takeWhile isNumChB
  let rest2 := (rest1.dropWhile isNumChB).dropWhile jsWsB
  if !amount.isEmpty && rest2.all (fun c => 97 ≤ c.toNat && c.toNat ≤ 122)
  then some (sym, amount, rest2) else none

/-- `matchCurrency` of the source. -/
def matchCurrency (userAnswer correctAnswer : List Char) : Bool :=
  match currencyParse (normalizeString userAnswer),
      currencyParse (normalizeString correctAnswer) with
  | some (userSymbol, userAmount, userWord),
      some (correctSymbol, correctAmount, correctWord) =>
    if (userAmount.filter (fun c => !(c == ','))) ≠
        (correctAmount.filter (fun c => !(c == ','))) then false
    else
      CURRENCY_VARIATIONS.any fun variations =>
        (variations.any fun v =>
          v == userSymbol || v == userWord.map jsLower) &&
        (variations.any fun v =>
          v == correctSymbol || v == correctWord.map jsLower)
  | _, _ => false

/-- `.replace(/[oO]/g, '0')` as a character map. -/
def oToZero (c : Char) : Char := if c = 'o' ∨ c = 'O' then '0' else c

/-- The inner `normalizePhone` of `matchPhoneNumber`: lower-case, strip
whitespace, rewrite o/O to 0, then expand "double N" and "triple N". -/
def normalizePhone (s : List Char) : List Char :=
  jsReplaceAll tryTriple (jsReplaceAll tryDouble
    ((removeAllSpaces (s.map jsLower)).map oToZero))

/-- `matchPhoneNumber` of the source. -/
def matchPhoneNumber (userAnswer correctAnswer : List Char) : Bool :=
  normalizePhone userAnswer == normalizePhone correctAnswer

/-- The optional ordinal suffixes of the date patterns
(`(?:st|nd|rd|th)?`). -/
def ORDINAL_SUFFIXES : List (List Char) :=
  [[], str "st", str "nd", str "rd", str "th"]

/-- Tail matcher for `(\d{1,2})(?:st|nd|rd|th)?$`. -/
def dayOrdTail (r : List Char) : Bool :=
  [1, 2].any fun n =>
    ORDINAL_SUFFIXES.any fun suf =>
      r.length == n + suf.length && (r.take n).all isDigitB &&
        (r.drop n).map jsLower == suf

/-- Date pattern `/^(\w+)\s+(\d{1,2})(?:st|nd|rd|th)?$/i`
("March 5th", "March 5"). -/
def dateP1 (s : List Char) : Bool :=
  let w := s.takeWhile isWordB
  let r1 := s.dropWhile isWordB
  let sp := r1.takeWhile jsWsB
  let r2 := r1.dropWhile jsWsB
  !w.isEmpty && !sp.isEmpty && dayOrdTail r2

/-- Date pattern `/^(\d{1,2})(?:st|nd|rd|th)?\s+(?:of\s+)?(\w+)$/i`
("5th March", "5 of March"). -/
def dateP2 (s : List Char) : Bool :=
  [1, 2].any fun n =>
    ORDINAL_SUFFIXES.any fun suf =>
      (s.take n).all isDigitB && s.length > n + suf.length &&
        ((s.drop n).take suf.length).map jsLower == suf &&
        (let r1 := s.drop (n + suf.length)
         let sp := r1.takeWhile jsWsB
         let r2 := r1.dropWhile jsWsB
         !sp.isEmpty &&
           ((!r2.isEmpty && r2.all isWordB) ||
            (match r2 with
             | o :: f :: r3 =>
               jsLower o == 'o' && jsLower f == 'f' &&
                 (let sp2 := r3.takeWhile jsWsB
                  let r4 := r3.dropWhile jsWsB
                  !sp2.isEmpty && !r4.isEmpty && r4.all isWordB)
             | _ => false)))

/-- Separators `[\/\-]` of the numeric date patterns. -/
def isDateSep (c : Char) : Bool := c == '/' || c == '-'

/-- Date pattern `/^(\d{1,2})[\/\-](\d{1,2})$/` ("03/05", "3-5"). -/
def dateP3 (s : List Char) : Bool :=
  [1, 2].any fun n =>
    (s.take n).all isDigitB &&
      (match s.drop n with
       | c :: r =>
         isDateSep c && !r.isEmpty && r.length ≤ 2 && r.all isDigitB
       | [] => false)

/-- Date pattern `/^(\d{4})[\/\-](\d{1,2})[\/\-](\d{1,2})$/
("2024-03-05"). -/
def dateP4 (s : List Char) : Bool :=
  s.length ≥ 5 && (s.take 4).all isDigitB &&
    (match s.drop 4 with
     | c :: r =>
       isDateSep c &&
         ([1, 2].any fun n =>
           !(r.take n).isEmpty && (r.take n).all isDigitB &&
             (r.take n).length == n &&
             (match r.drop n with
              | c2 :: r2 =>
                isDateSep c2 && !r2.isEmpty && r2.length ≤ 2 &&
                  r2.all isDigitB
              | [] => false))
     | [] => false)

/-- The four structural date patterns in source order. -/
def datePatterns : List (List Char → Bool) := [dateP1, dateP2, dateP3, dateP4]

/-- `matchDate` of the source: if both operands match the same pattern
family the function returns `true` without comparing components; if no
pattern matches both it returns `false`. -/
def matchDate (userAnswer correctAnswer : List Char) : Bool :=
  let user := normalizeString userAnswer
  let correct := normalizeString correctAnswer
  datePatterns.any fun pattern => pattern user && pattern correct

/-! ### The answer-equivalence engine -/

/-- `.replace(/^the\s+/, '')`: strip a leading "the" plus whitespace. -/
def stripLeadThe (s : List Char) : List Char :=
  match s with
  | 't' :: 'h' :: 'e' :: c :: rest =>
    if jsWsB c then (c :: rest).dropWhile jsWsB else s
  | _ => s

/-- `.replace(/\s+the$/, '')`: strip a trailing whitespace-plus-"the". -/
def stripTrailThe (s : List Char) : List Char :=
  match s.reverse with
  | 'e' :: 'h' :: 't' :: c :: rest =>
    if jsWsB c then ((c :: rest).dropWhile jsWsB).reverse else s
  | _ => s

/-- The `withoutThe` helper of `checkIeltsAnswer`. -/
def withoutThe (s : List Char) : List Char := stripTrailThe (stripLeadThe s)

/-- The `withoutArticle` helper: `.replace(/^(a|an)\s+/, '')`. -/
def withoutArticle (s : List Char) : List Char :=
  match s with
  | 'a' :: c :: rest =>
    if jsWsB c then (c :: rest).dropWhile jsWsB
    else if c = 'n' then
      match rest with
      | d :: rest2 => if jsWsB d then (d :: rest2).dropWhile jsWsB else s
      | [] => s
    else s
  | _ => s

/-- The `withoutHyphens` helper: replace every hyphen by a space. -/
def withoutHyphens (s : List Char) : List Char :=
  s.map fun c => if c = '-' then ' ' else c

/-- Replace every plain space by a hyphen (the pattern is a literal
space, not the whitespace class). -/
def spacesToHyphens (s : List Char) : List Char :=
  s.map fun c => if c = ' ' then '-' else c

/-- The body of the `for` loop of `checkIeltsAnswer`: all the per-
alternative acceptance rules, tried in source order. -/
def checkOne (user correct : List Char) : Bool :=
  user == correct ||
  removeAllSpaces user == removeAllSpaces correct ||
  matchTime user correct ||
  matchNumber user correct ||
  matchMeasurement user correct ||
  matchCurrency user correct ||
  matchPhoneNumber user correct ||
  matchDate user correct ||
  withoutThe user == withoutThe correct ||
  withoutArticle user == withoutArticle correct ||
  user ++ ['s'] == correct || user == correct ++ ['s'] ||
  user ++ ['e', 's'] == correct || user == correct ++ ['e', 's'] ||
  withoutHyphens user == withoutHyphens correct ||
  spacesToHyphens user == correct

/-- `checkIeltsAnswer` of the source: fail closed on empty input, split
the canonical string on `/` into alternatives, accept if any
alternative passes any rule. -/
def checkIeltsAnswer (userAnswer correctAnswers : List Char) : Bool :=
  if userAnswer.isEmpty || correctAnswers.isEmpty then false
  else
    let user := normalizeString userAnswer
    let acceptableAnswers :=
      (splitOnChar '/' correctAnswers).map fun a => normalizeString (jsTrim a)
    acceptableAnswers.any fun correct => checkOne user correct

/-- Insertion-ordered deduplication: the effect of `new Set(xs)` . -/
def jsSetList (l : List (List Char)) : List (List Char) :=
  l.foldl (fun acc x => if acc.contains x then acc else acc ++ [x]) []

/-- The normalised, empty-filtered token list of one comma-separated
input of `checkMultipleChoiceMultiple`. -/
def mcmTokens (s : List Char) : List (List Char) :=
  ((splitOnChar ',' s).map normalizeString).filter fun t => !t.isEmpty

/-- `checkMultipleChoiceMultiple` of the source: tokens to sets, accept
iff equal size and mutual containment. -/
def checkMultipleChoiceMultiple (userAnswer correctAnswer : List Char) : Bool :=
  if userAnswer.isEmpty || correctAnswer.isEmpty then false
  else
    let userOptions := jsSetList (mcmTokens userAnswer)
    let correctOptions := jsSetList (mcmTokens correctAnswer)
    userOptions.length == correctOptions.length &&
      (userOptions.all fun opt => correctOptions.contains opt) &&
      (correctOptions.all fun opt => userOptions.contains opt)

/-- The question-type tag that selects multi-select checking. -/
def MCM_TAG : List Char := str "MULTIPLE_CHOICE_MULTIPLE"

/-- `checkAnswer` of the source: dispatch on the question type. -/
def checkAnswer (userAnswer correctAnswer : List Char)
    (questionType : Option (List Char)) : Bool :=
  if questionType = some MCM_TAG then
    checkMultipleChoiceMultiple userAnswer correctAnswer
  else checkIeltsAnswer userAnswer correctAnswer

/-! ### Character-level facts -/

/-- The composite of the two typographic-quote fixes of
`normalizeString`, as a single character map. -/
def qaFix (c : Char) : Char := quotFix (aposFix c)

theorem char_eq_of_toNat {c d : Char} (h : c.toNat = d.toNat) : c = d := by
  cases c; cases d
  simp only [Char.toNat] at h
  congr 1
  exact UInt32.ext h

theorem char_eq_iff_toNat {c d : Char} : c = d ↔ c.toNat = d.toNat :=
  ⟨fun h => h ▸ rfl, char_eq_of_toNat⟩

theorem char_toNat_ofNat {n : Nat} (h1 : n < 55296) :
    (Char.ofNat n).toNat = n := by
  unfold Char.ofNat
  rw [dif_pos (Or.inl h1)]
  simp [Char.ofNatAux, Char.toNat, UInt32.toNat, BitVec.toNat_ofNatLt]

theorem toNat_jsLower (c : Char) :
    (jsLower c).toNat =
      if 65 ≤ c.toNat ∧ c.toNat ≤ 90 then c.toNat + 32 else c.toNat := by
  unfold jsLower
  split
  · next h => exact char_toNat_ofNat (by omega)
  · rfl

theorem jsWs_iff (c : Char) :
    jsWsB c = true ↔
      (c.toNat = 9 ∨ c.toNat = 10 ∨ c.toNat = 11 ∨ c.toNat = 12 ∨
       c.toNat = 13 ∨ c.toNat = 32 ∨ c.toNat = 160 ∨ c.toNat = 5760 ∨
       (8192 ≤ c.toNat ∧ c.toNat ≤ 8202) ∨ c.toNat = 8232 ∨
       c.toNat = 8233 ∨ c.toNat = 8239 ∨ c.toNat = 8287 ∨
       c.toNat = 12288 ∨ c.toNat = 65279) := by
  simp [jsWsB, Bool.or_eq_true, beq_iff_eq, Bool.and_eq_true,
    decide_eq_true_eq, or_assoc]

theorem jsWs_jsLower (c : Char) : jsWsB (jsLower c) = jsWsB c := by
  rw [Bool.eq_iff_iff, jsWs_iff, jsWs_iff, toNat_jsLower]
  split <;> omega

theorem jsLower_jsLower (c : Char) : jsLower (jsLower c) = jsLower c := by
  apply char_eq_of_toNat
  simp only [toNat_jsLower]
  split_ifs <;> omega

theorem toNat_aposFix (c : Char) :
    (aposFix c).toNat =
      if c.toNat = 8216 ∨ c.toNat = 8217 then 39 else c.toNat := by
  unfold aposFix
  split
  · decide
  · rfl

theorem toNat_quotFix (c : Char) :
    (quotFix c).toNat =
      if c.toNat = 8220 ∨ c.toNat = 8221 then 34 else c.toNat := by
  unfold quotFix
  split
  · decide
  · rfl

theorem toNat_qaFix (c : Char) :
    (qaFix c).toNat =
      if c.toNat = 8216 ∨ c.toNat = 8217 then 39
      else if c.toNat = 8220 ∨ c.toNat = 8221 then 34
      else c.toNat := by
  unfold qaFix
  simp only [toNat_quotFix, toNat_aposFix]
  split_ifs <;> omega

theorem jsWs_qaFix (c : Char) : jsWsB (qaFix c) = jsWsB c := by
  rw [Bool.eq_iff_iff, jsWs_iff, jsWs_iff, toNat_qaFix]
  split_ifs <;> omega

theorem jsLower_qaFix (c : Char) : jsLower (qaFix c) = qaFix (jsLower c) := by
  apply char_eq_of_toNat
  simp only [toNat_jsLower, toNat_qaFix]
  split_ifs <;> omega

theorem toNat_oToZero (c : Char) :
    (oToZero c).toNat =
      if c.toNat = 111 ∨ c.toNat = 79 then 48 else c.toNat :=  by
  have ho : (('o' : Char)).toNat = 111 := by decide
  have hO : (('O' : Char)).toNat = 79 := by decide
  have h0 : (('0' : Char)).toNat = 48 := by decide
  unfold oToZero
  simp only [char_eq_iff_toNat, ho, hO]
  split_ifs
  · exact h0
  · rfl

theorem oToZero_qaFix (c : Char) : oToZero (qaFix c) = qaFix (oToZero c) := by
  apply char_eq_of_toNat
  simp only [toNat_oToZero, toNat_qaFix]
  split_ifs <;> omega

/-- After the o-to-zero rewrite, no character lower-cases to the letter
o, so the "double" pattern can never match. -/
theorem no_o_oToZero (c : Char) : ¬ jsLower (oToZero c) = 'o' := by
  rw [char_eq_iff_toNat]
  have ho : (('o' : Char)).toNat = 111 := by decide
  simp only [ho, toNat_jsLower, toNat_oToZero]
  split_ifs <;> omega

theorem no_o_qaFix {c : Char} (h : ¬ jsLower c = 'o') :
    ¬ jsLower (qaFix c) = 'o' := by
  rw [char_eq_iff_toNat] at h ⊢
  have ho : (('o' : Char)).toNat = 111 := by decide
  rw [ho] at h ⊢
  revert h
  simp only [toNat_jsLower, toNat_qaFix]
  split_ifs <;> omega

/-- `qaFix` fixes every character whose code is below the typographic
range and is not an ASCII apostrophe or double quote target. -/
theorem qaFix_eq_iff {c d : Char} (hd : d.toNat < 8216) (h39 : d.toNat ≠ 39)
    (h34 : d.toNat ≠ 34) : qaFix c = d ↔ c = d := by
  rw [char_eq_iff_toNat, char_eq_iff_toNat, toNat_qaFix]
  split_ifs <;> omega

theorem isDigit_qaFix (c : Char) : isDigitB (qaFix c) = isDigitB c := by
  rw [Bool.eq_iff_iff]
  simp only [isDigitB, Bool.and_eq_true, decide_eq_true_eq]
  rw [toNat_qaFix]
  split_ifs <;> omega

/-! ### List-level facts about the normaliser -/

theorem filter_squeezeSp (q : Char → Bool) (hq : q ' ' = false) :
    ∀ l : List Char, (squeezeSp l).filter q = l.filter q := by
  intro l
  induction l using squeezeSp.induct with
  | case1 => rfl
  | case2 c => rfl
  | case3 a b rest h ih =>
    obtain ⟨ha, hb⟩ := h
    subst ha; subst hb
    rw [squeezeSp, if_pos ⟨rfl, rfl⟩, ih, List.filter_cons, List.filter_cons]
    simp [hq]
  | case4 a b rest h ih =>
    rw [squeezeSp, if_neg h, List.filter_cons, List.filter_cons]
    cases ha : q a <;> simp [ha, ih]

theorem filter_notWs_map_wsFix (l : List Char) :
    (l.map wsFix).filter (fun c => !jsWsB c) = l.filter (fun c => !jsWsB c) := by
  induction l with
  | nil => rfl
  | cons c t ih =>
    by_cases hc : jsWsB c = true
    · have : wsFix c = ' ' := by simp [wsFix, hc]
      simp [List.filter_cons, this, hc, ih, show jsWsB ' ' = true from by decide]
    · have : wsFix c = c := by simp [wsFix]; intro h; exact absurd h hc
      simp only [List.map_cons, List.filter_cons, this]
      simp only [Bool.not_eq_true] at hc
      simp [hc, ih]

theorem removeAllSpaces_collapseWs (l : List Char) :
    removeAllSpaces (collapseWs l) = removeAllSpaces l := by
  unfold removeAllSpaces collapseWs
  rw [filter_squeezeSp _ (by decide), filter_notWs_map_wsFix]

theorem filter_notWs_dropWhile (l : List Char) :
    (l.dropWhile jsWsB).filter (fun c => !jsWsB c) =
      l.filter (fun c => !jsWsB c) := by
  induction l with
  | nil => rfl
  | cons c t ih =>
    by_cases hc : jsWsB c = true
    · rw [List.dropWhile_cons_of_pos hc, ih, List.filter_cons]
      simp [hc]
    · simp only [Bool.not_eq_true] at hc
      rw [List.dropWhile_cons_of_neg (by simp [hc])]

theorem removeAllSpaces_jsTrim (l : List Char) :
    removeAllSpaces (jsTrim l) = removeAllSpaces l := by
  unfold removeAllSpaces jsTrim
  rw [List.filter_reverse, filter_notWs_dropWhile, List.filter_reverse,
    List.reverse_reverse, filter_notWs_dropWhile]

theorem removeAllSpaces_map_jsLower (l : List Char) :
    removeAllSpaces (l.map jsLower) = (removeAllSpaces l).map jsLower := by
  unfold removeAllSpaces
  have e : ((fun c => !jsWsB c) ∘ jsLower) = (fun c => !jsWsB c) :=
    funext fun c => by simp [Function.comp, jsWs_jsLower]
  rw [List.filter_map, e]

theorem removeAllSpaces_map_qaFix (l : List Char) :
    removeAllSpaces (l.map qaFix) = (removeAllSpaces l).map qaFix := by
  unfold removeAllSpaces
  have e : ((fun c => !jsWsB c) ∘ qaFix) = (fun c => !jsWsB c) :=
    funext fun c => by simp [Function.comp, jsWs_qaFix]
  rw [List.filter_map, e]

theorem map_jsLower_idem (l : List Char) :
    (l.map jsLower).map jsLower = l.map jsLower := by
  rw [List.map_map]
  exact List.map_congr_left fun a _ => jsLower_jsLower a

theorem jsTrim_map_jsLower (l : List Char) :
    jsTrim (l.map jsLower) = (jsTrim l).map jsLower := by
  unfold jsTrim
  rw [List.dropWhile_map]
  have e1 : (jsWsB ∘ jsLower) = jsWsB := funext fun c => jsWs_jsLower c
  rw [e1, ← List.map_reverse, List.dropWhile_map, e1, ← List.map_reverse]

theorem dropWhile_eq_self_of_head {w : List Char} {p : Char → Bool}
    (h : ∀ a u, w = a :: u → p a = false) : w.dropWhile p = w := by
  cases w with
  | nil => rfl
  | cons a u => rw [List.dropWhile_cons_of_neg (by simp [h a u rfl])]

theorem jsTrim_idem (l : List Char) : jsTrim (jsTrim l) = jsTrim l := by
  have e : ∀ u : List Char, jsTrim u = List.rdropWhile jsWsB (u.dropWhile jsWsB) :=
    fun u => rfl
  have key : ∀ w : List Char, w.dropWhile jsWsB = w →
      (List.rdropWhile jsWsB w).dropWhile jsWsB = List.rdropWhile jsWsB w := by
    intro w hw
    obtain ⟨t, ht⟩ := List.dropWhile_suffix (l := w.reverse) (p := jsWsB)
    have hdecomp : w = List.rdropWhile jsWsB w ++ t.reverse := by
      conv_lhs => rw [← w.reverse_reverse, ← ht]
      rw [List.reverse_append]
      rfl
    apply dropWhile_eq_self_of_head
    intro a u hau
    have hw2 : w = a :: (u ++ t.reverse) := by
      rw [hdecomp, hau]; simp
    by_contra hpa
    simp only [Bool.not_eq_false] at hpa
    have : w.dropWhile jsWsB = (u ++ t.reverse).dropWhile jsWsB := by
      rw [hw2, List.dropWhile_cons_of_pos hpa]
    have hlen : w.length ≤ (u ++ t.reverse).length := by
      rw [← hw]
      rw [this]
      exact (List.dropWhile_suffix jsWsB).length_le
    rw [hw2] at hlen
    simp at hlen
  rw [e l, e]
  rw [key _ (List.dropWhile_idempotent _ _), List.rdropWhile_idempotent]

theorem normalizeString_eq (s : List Char) :
    normalizeString s = (collapseWs (jsTrim (s.map jsLower))).map qaFix := by
  unfold normalizeString
  rw [List.map_map]
  rfl

theorem normalizeString_jsTrim (s : List Char) :
    normalizeString (jsTrim s) = normalizeString s := by
  rw [normalizeString_eq, normalizeString_eq]
  rw [jsTrim_map_jsLower, jsTrim_idem, ← jsTrim_map_jsLower]

theorem normalizeString_of_all_ws {s : List Char}
    (h : ∀ c ∈ s, jsWsB c = true) : normalizeString s = [] := by
  rw [normalizeString_eq]
  have h1 : (s.map jsLower).dropWhile jsWsB = [] := by
    rw [List.dropWhile_eq_nil_iff]
    intro x hx
    obtain ⟨c, hc, rfl⟩ := List.mem_map.mp hx
    rw [jsWs_jsLower]
    exact h c hc
  unfold jsTrim
  rw [h1]
  rfl

/-! ### Facts about the scanners of `normalizePhone` -/

/-- On a string in which no character lower-cases to the letter o, the
"double" matcher never fires. -/
theorem tryDouble_eq_none {s : List Char}
    (h : ∀ c ∈ s, ¬ jsLower c = 'o') : tryDouble s = none := by
  rcases s with _ | ⟨c1, _ | ⟨c2, _ | ⟨c3, _ | ⟨c4, _ | ⟨c5, _ | ⟨c6, rest⟩⟩⟩⟩⟩⟩ <;>
    try rfl
  rw [tryDouble, if_neg]
  intro hcond
  exact h c2 (by simp) hcond.2.1

theorem scanGo_eq_self {f : List Char → Option (List Char × List Char)}
    (hf : ∀ t : List Char, (∀ c ∈ t, ¬ jsLower c = 'o') → f t = none)
    {s : List Char} (h : ∀ c ∈ s, ¬ jsLower c = 'o') :
    ∀ fuel, scanGo f fuel s = s := by
  induction s with
  | nil => intro fuel; cases fuel <;> rfl
  | cons c cs ih =>
    intro fuel
    cases fuel with
    | zero => rfl
    | succ n =>
      rw [scanGo, hf _ h]
      rw [ih (fun x hx => h x (List.mem_cons_of_mem c hx)) n]

/-- The "double" expansion is the identity on o-free strings. -/
theorem jsReplaceAll_tryDouble_eq_self {s : List Char}
    (h : ∀ c ∈ s, ¬ jsLower c = 'o') : jsReplaceAll tryDouble s = s :=
  scanGo_eq_self (fun _ ht => tryDouble_eq_none ht) h _

/-- The "triple" matcher commutes with the quote-fix character map. -/
theorem tryTriple_map_qaFix (s : List Char) :
    tryTriple (s.map qaFix) =
      Option.map (fun pr : List Char × List Char =>
        (pr.1.map qaFix, pr.2.map qaFix)) (tryTriple s) := by
  have letter : ∀ (c d : Char), 97 ≤ d.toNat → d.toNat ≤ 122 →
      ((jsLower (qaFix c) = d) ↔ (jsLower c = d)) := by
    intro c d h1 h2
    rw [jsLower_qaFix]
    exact qaFix_eq_iff (by omega) (by omega) (by omega)
  rcases s with _ | ⟨c1, _ | ⟨c2, _ | ⟨c3, _ | ⟨c4, _ | ⟨c5, _ | ⟨c6, rest⟩⟩⟩⟩⟩⟩ <;>
    try rfl
  simp only [List.map_cons]
  rw [tryTriple, tryTriple]
  have hcond : (jsLower (qaFix c1) = 't' ∧ jsLower (qaFix c2) = 'r' ∧
      jsLower (qaFix c3) = 'i' ∧ jsLower (qaFix c4) = 'p' ∧
      jsLower (qaFix c5) = 'l' ∧ jsLower (qaFix c6) = 'e') ↔
      (jsLower c1 = 't' ∧ jsLower c2 = 'r' ∧ jsLower c3 = 'i' ∧
       jsLower c4 = 'p' ∧ jsLower c5 = 'l' ∧ jsLower c6 = 'e') := by
    rw [letter c1 't' (by decide) (by decide), letter c2 'r' (by decide) (by decide),
      letter c3 'i' (by decide) (by decide), letter c4 'p' (by decide) (by decide),
      letter c5 'l' (by decide) (by decide), letter c6 'e' (by decide) (by decide)]
  by_cases h : (jsLower c1 = 't' ∧ jsLower c2 = 'r' ∧ jsLower c3 = 'i' ∧
      jsLower c4 = 'p' ∧ jsLower c5 = 'l' ∧ jsLower c6 = 'e')
  · rw [if_pos (hcond.mpr h), if_pos h]
    rw [List.dropWhile_map]
    have e : (jsWsB ∘ qaFix) = jsWsB := funext fun c => jsWs_qaFix c
    rw [e]
    cases hdw : rest.dropWhile jsWsB with
    | nil => rfl
    | cons d t =>
      simp only [List.map_cons]
      rw [isDigit_qaFix]
      cases hd : isDigitB d <;> simp [hd]
  · rw [if_neg (fun hc => h (hcond.mp hc)), if_neg h]
    rfl

theorem scanGo_map_qaFix {f : List Char → Option (List Char × List Char)}
    (hf : ∀ t : List Char, f (t.map qaFix) =
      Option.map (fun pr : List Char × List Char =>
        (pr.1.map qaFix, pr.2.map qaFix)) (f t)) :
    ∀ fuel (s : List Char),
      scanGo f fuel (s.map qaFix) = (scanGo f fuel s).map qaFix := by
  intro fuel
  induction fuel with
  | zero => intro s; cases s <;> rfl
  | succ n ih =>
    intro s
    cases s with
    | nil => rfl
    | cons c cs =>
      have hfc' := hf (c :: cs)
      simp only [List.map_cons] at hfc'
      simp only [List.map_cons]
      rw [scanGo, scanGo, hfc']
      cases hfc : f (c :: cs) with
      | none => simp [ih cs]
      | some pr => simp [ih pr.2]

/-- The "triple" expansion commutes with the quote-fix character map. -/
theorem jsReplaceAll_tryTriple_map_qaFix (s : List Char) :
    jsReplaceAll tryTriple (s.map qaFix) =
      (jsReplaceAll tryTriple s).map qaFix := by
  unfold jsReplaceAll
  rw [List.length_map]
  exact scanGo_map_qaFix tryTriple_map_qaFix s.length s

theorem map_oToZero_map_qaFix (l : List Char) :
    (l.map qaFix).map oToZero = (l.map oToZero).map qaFix := by
  rw [List.map_map, List.map_map]
  exact List.map_congr_left fun a _ => oToZero_qaFix a

theorem map_jsLower_map_qaFix (l : List Char) :
    (l.map qaFix).map jsLower = (l.map jsLower).map qaFix := by
  rw [List.map_map, List.map_map]
  exact List.map_congr_left fun a _ => jsLower_qaFix a

/-- The phone normalisation of a `normalizeString`-normalised string is
the phone normalisation of the raw string, up to the quote-fix map:
lower-casing and whitespace handling in `normalizeString` are absorbed
by `normalizePhone` itself. -/
theorem normalizePhone_normalizeString (x : List Char) :
    normalizePhone (normalizeString x) = (normalizePhone x).map qaFix := by
  rw [normalizeString_eq]
  unfold normalizePhone
  rw [map_jsLower_map_qaFix, removeAllSpaces_map_qaFix, map_oToZero_map_qaFix]
  have hW : removeAllSpaces ((collapseWs (jsTrim (x.map jsLower))).map jsLower) =
      removeAllSpaces (x.map jsLower) := by
    rw [removeAllSpaces_map_jsLower, removeAllSpaces_collapseWs,
      removeAllSpaces_jsTrim, removeAllSpaces_map_jsLower, List.map_map]
    exact List.map_congr_left fun a _ => jsLower_jsLower a
  rw [hW]
  have hno : ∀ c ∈ (removeAllSpaces (x.map jsLower)).map oToZero,
      ¬ jsLower c = 'o' := by
    intro c hc
    obtain ⟨d, _, rfl⟩ := List.mem_map.mp hc
    exact no_o_oToZero d
  have hnoq : ∀ c ∈ ((removeAllSpaces (x.map jsLower)).map oToZero).map qaFix,
      ¬ jsLower c = 'o' := by
    intro c hc
    obtain ⟨d, hd, rfl⟩ := List.mem_map.mp hc
    exact no_o_qaFix (hno d hd)
  rw [jsReplaceAll_tryDouble_eq_self hnoq, jsReplaceAll_tryDouble_eq_self hno]
  exact jsReplaceAll_tryTriple_map_qaFix _

/-! ### Facts about splitting on the alternative delimiter -/

theorem splitOnChar_no_sep {sep : Char} :
    ∀ {s : List Char}, sep ∉ s → splitOnChar sep s = [s]
  | [], _ => rfl
  | c :: t, h => by
    have hc : ¬ c = sep := fun e => h (e ▸ List.mem_cons_self c t)
    have ih := splitOnChar_no_sep (s := t) fun m => h (List.mem_cons_of_mem c m)
    simp [splitOnChar, hc, ih]

theorem splitOnChar_append_sep {sep : Char} :
    ∀ {a : List Char} (r : List Char), sep ∉ a →
      splitOnChar sep (a ++ sep :: r) = a :: splitOnChar sep r
  | [], r, _ => by simp [splitOnChar]
  | c :: t, r, h => by
    have hc : ¬ c = sep := fun e => h (e ▸ List.mem_cons_self c t)
    have ih := splitOnChar_append_sep (a := t) r
      fun m => h (List.mem_cons_of_mem c m)
    simp only [List.cons_append, splitOnChar, if_neg hc]
    rw [show t.append (sep :: r) = t ++ sep :: r from rfl, ih]

/-! ### Facts about the set built by `checkMultipleChoiceMultiple` -/

theorem mem_foldl_ins (x : List Char) :
    ∀ (l acc : List (List Char)),
      (x ∈ l.foldl (fun acc y =>
        if acc.contains y then acc else acc ++ [y]) acc) ↔ x ∈ acc ∨ x ∈ l := by
  intro l
  induction l with
  | nil => intro acc; simp
  | cons y t ih =>
    intro acc
    rw [List.foldl_cons, ih]
    by_cases hy : acc.contains y = true
    · rw [if_pos hy]
      have : y ∈ acc := List.elem_iff.mp hy
      constructor
      · rintro (h | h)
        · exact Or.inl h
        · exact Or.inr (List.mem_cons_of_mem y h)
      · rintro (h | h)
        · exact Or.inl h
        · rcases List.mem_cons.mp h with rfl | h
          · exact Or.inl this
          · exact Or.inr h
    · rw [if_neg hy]
      simp only [List.mem_append, List.mem_singleton, List.mem_cons]
      tauto

theorem nodup_foldl_ins :
    ∀ (l acc : List (List Char)), acc.Nodup →
      (l.foldl (fun acc y =>
        if acc.contains y then acc else acc ++ [y]) acc).Nodup := by
  intro l
  induction l with
  | nil => intro acc h; simpa using h
  | cons y t ih =>
    intro acc h
    rw [List.foldl_cons]
    by_cases hy : acc.contains y = true
    · rw [if_pos hy]; exact ih acc h
    · rw [if_neg hy]
      apply ih
      rw [List.nodup_append]
      refine ⟨h, List.nodup_singleton y, ?_⟩
      intro a ha hmem
      rw [List.mem_singleton] at hmem
      subst hmem
      exact hy (List.elem_iff.mpr ha)

theorem mem_jsSetList {x : List Char} {l : List (List Char)} :
    x ∈ jsSetList l ↔ x ∈ l := by
  unfold jsSetList
  rw [mem_foldl_ins]
  simp

theorem nodup_jsSetList (l : List (List Char)) : (jsSetList l).Nodup :=
  nodup_foldl_ins l [] List.nodup_nil

theorem toFinset_jsSetList (l : List (List Char)) :
    (jsSetList l).toFinset = l.toFinset := by
  apply Finset.ext
  intro x
  rw [List.mem_toFinset, List.mem_toFinset, mem_jsSetList]

theorem length_jsSetList (l : List (List Char)) :
    (jsSetList l).length = l.toFinset.card := by
  rw [← toFinset_jsSetList, List.toFinset_card_of_nodup (nodup_jsSetList l)]

/-! ### Small unfolding helpers -/

theorem isEmpty_false {l : List Char} (h : l ≠ []) : l.isEmpty = false := by
  cases l with
  | nil => exact absurd rfl h
  | cons a t => rfl

/-- Without a question type, `checkAnswer` is `checkIeltsAnswer`. -/
theorem checkAnswer_none (u c : List Char) :
    checkAnswer u c none = checkIeltsAnswer u c := by
  unfold checkAnswer
  rw [if_neg]
  exact fun h => Option.noConfusion h

/-- `checkIeltsAnswer` on a slash-free canonical answer reduces to the
rule chain against the single normalised alternative. -/
theorem checkIeltsAnswer_single {u c : List Char} (hu : u ≠ []) (hc : c ≠ [])
    (hslash : '/' ∉ c) :
    checkIeltsAnswer u c =
      checkOne (normalizeString u) (normalizeString c) := by
  unfold checkIeltsAnswer
  rw [isEmpty_false hu, isEmpty_false hc]
  rw [splitOnChar_no_sep hslash]
  simp only [List.map_cons, List.map_nil, List.any_cons, List.any_nil,
    Bool.or_false, Bool.or_self, Bool.false_eq_true, if_false]
  rw [normalizeString_jsTrim]

end Ielts

example : Ielts.str "ab" = ['a', 'b'] := by decide
example : Ielts.jsLower 'B' = 'b' := by decide
example : (Ielts.str "A,B").map Ielts.jsLower = Ielts.str "a,b" := by decide
example : Ielts.jsWsB ' ' = true := by decide
example : Ielts.normalizeString (Ielts.str "  The   CAT  ") = Ielts.str "the cat" := by decide
example : Ielts.splitOnChar '/' (Ielts.str "a/b/c") = [Ielts.str "a", Ielts.str "b", Ielts.str "c"] := by decide
example : Ielts.splitOnChar '/' (Ielts.str "/b") = [[], Ielts.str "b"] := by decide
example : Ielts.splitOnChar '/' [] = [[]] := by decide

namespace Ielts

/-! ### Claim C1 -/

/-- C1, counterexample: `checkAnswer(s, s)` is not true for every
string `s` — it is false for the empty string (the fail-closed guard)
and for strings containing the alternative delimiter `/`. -/
theorem c1_counterexample :
    checkAnswer [] [] none = false ∧
    checkAnswer (str "a/b") (str "a/b") none = false := by
  constructor
  · decide
  · decide

/-- C1, amended: for every non-empty string `s` that does not contain
the delimiter `/`, `checkAnswer(s, s)` (with no question type, hence
via `checkIeltsAnswer`) returns true. -/
theorem c1_reflexive (s : List Char) (hne : s ≠ []) (hsl : '/' ∉ s) :
    checkAnswer s s none = true := by
  rw [checkAnswer_none, checkIeltsAnswer_single hne hne hsl]
  unfold checkOne
  simp

/-- Witness for C1 at a concrete input. -/
theorem c1_witness : checkAnswer (str "hello") (str "hello") none = true :=
  c1_reflexive (str "hello") (by decide) (by decide)

/-! ### Claim C2 -/

/-- C2: the claim asserts `checkAnswer("double 5 5", "5 5 5")` is true,
but the code returns false: `normalizePhone` rewrites o/O to 0 before
expanding "double N", so "double" has already become "d0uble" and the
expansion regex can never fire.  The o-for-zero half of the claim does
hold (`checkAnswer("o123", "0123")` is true). -/
theorem c2_phone_double_dead :
    checkAnswer (str "double 5 5") (str "5 5 5") none = false ∧
    normalizePhone (str "double 5 5") = str "d0uble55" ∧
    checkAnswer (str "o123") (str "0123") none = true := by
  refine ⟨by decide, by decide, by decide⟩

/-! ### Claim C3 -/

/-- C3: `checkAnswer("12", "twelve")` is true and
`checkAnswer("13", "thirty")` is false as claimed, but
`checkAnswer("100", "one hundred")` is false, contrary to the claim:
`matchNumber` strips all whitespace from both operands, so the operand
becomes "onehundred" while the `NUMBER_WORDS` entry keeps its space
("one hundred"), making every multi-word table entry unreachable. -/
theorem c3_number_words :
    checkAnswer (str "12") (str "twelve") none = true ∧
    checkAnswer (str "100") (str "one hundred") none = false ∧
    checkAnswer (str "13") (str "thirty") none = false ∧
    matchNumber (str "100") (str "one hundred") = false := by
  refine ⟨by decide, by decide, by decide, by decide⟩

/-! ### Claim C4 -/

/-- C4, counterexample: alternative independence fails when an
alternative is empty; with `a = ""`, `b = "b"`, `c = "c"` and
`x = "s"`, `checkAnswer("s", "/b/c")` is true (the pluralisation rule
fires against the empty alternative) while all three individual calls
are false (`checkAnswer("s", "")` fails closed). -/
theorem c4_counterexample :
    checkAnswer (str "s") (str "/b/c") none = true ∧
    checkAnswer (str "s") [] none = false ∧
    checkAnswer (str "s") (str "b") none = false ∧
    checkAnswer (str "s") (str "c") none = false := by
  refine ⟨by decide, by decide, by decide, by decide⟩

/-- C4, amended: for every user answer `x` and non-empty strings `a`,
`b`, `c` none containing `/`, `checkAnswer(x, "a/b/c")` is true iff one
of `checkAnswer(x, a)`, `checkAnswer(x, b)`, `checkAnswer(x, c)` is. -/
theorem c4_alternative_independence (x a b c : List Char)
    (ha : a ≠ []) (hb : b ≠ []) (hc : c ≠ [])
    (hsa : '/' ∉ a) (hsb : '/' ∉ b) (hsc : '/' ∉ c) :
    checkAnswer x (a ++ '/' :: (b ++ '/' :: c)) none = true ↔
      (checkAnswer x a none = true ∨ checkAnswer x b none = true ∨
       checkAnswer x c none = true) := by
  rw [checkAnswer_none, checkAnswer_none, checkAnswer_none, checkAnswer_none]
  by_cases hx : x = []
  · subst hx
    unfold checkIeltsAnswer
    simp
  · have hne : a ++ '/' :: (b ++ '/' :: c) ≠ [] := by
      cases a <;> simp
    unfold checkIeltsAnswer
    rw [isEmpty_false hx, isEmpty_false hne, isEmpty_false ha,
      isEmpty_false hb, isEmpty_false hc]
    rw [splitOnChar_append_sep _ hsa, splitOnChar_append_sep _ hsb,
      splitOnChar_no_sep hsc]
    rw [splitOnChar_no_sep hsa, splitOnChar_no_sep hsb]
    simp only [List.map_cons, List.map_nil, List.any_cons, List.any_nil,
      Bool.or_false, Bool.false_or, Bool.false_eq_true, if_false,
      Bool.or_eq_true]

/-- Witness for C4 at concrete inputs. -/
theorem c4_witness :
    checkAnswer (str "cat") (str "cat/dog/bird") none = true ↔
      (checkAnswer (str "cat") (str "cat") none = true ∨
       checkAnswer (str "cat") (str "dog") none = true ∨
       checkAnswer (str "cat") (str "bird") none = true) :=
  c4_alternative_independence (str "cat") (str "cat") (str "dog") (str "bird")
    (by decide) (by decide) (by decide) (by decide) (by decide) (by decide)

/-! ### Claim C5 -/

/-- C5: for every string `t`, `checkAnswer("", t)` and
`checkAnswer(t, "")` are false — empty inputs fail closed. -/
theorem c5_fail_closed (t : List Char) :
    checkAnswer [] t none = false ∧ checkAnswer t [] none = false := by
  rw [checkAnswer_none, checkAnswer_none]
  unfold checkIeltsAnswer
  simp

/-! ### Claim C6 -/

/-- C6: `matchDate` returns true exactly when some one of the four
structural patterns matches both normalised operands, without comparing
any extracted components; in particular "march 5" is accepted against
"april 9".  If no pattern matches both operands it returns false. -/
theorem c6_date_pattern_families :
    (∀ u c : List Char, matchDate u c = true ↔
      ∃ p ∈ datePatterns,
        p (normalizeString u) = true ∧ p (normalizeString c) = true) ∧
    matchDate (str "march 5") (str "april 9") = true := by
  constructor
  · intro u c
    simp [matchDate, List.any_eq_true, Bool.and_eq_true]
  · decide

/-! ### Claim C7 -/

/-- C7: `checkMultipleChoiceMultiple` normalises the comma-separated
tokens of each input, discards empty tokens, collapses duplicates, and
accepts exactly when the two resulting sets are equal (the code imposes
equal cardinality plus mutual containment, which is the same thing);
hence the three cited examples. -/
theorem c7_multi_select_set_equality :
    (∀ u c : List Char, checkMultipleChoiceMultiple u c = true ↔
      (u ≠ [] ∧ c ≠ [] ∧ (mcmTokens u).toFinset = (mcmTokens c).toFinset)) ∧
    checkMultipleChoiceMultiple (str "B,A") (str "A,B") = true ∧
    checkMultipleChoiceMultiple (str "A,A,B") (str "A,B") = true ∧
    checkMultipleChoiceMultiple (str "A,B,C") (str "A,B") = false := by
  refine ⟨?_, by decide, by decide, by decide⟩
  intro u c
  unfold checkMultipleChoiceMultiple
  by_cases hu : u = []
  · subst hu; simp
  by_cases hc : c = []
  · subst hc; simp
  rw [isEmpty_false hu, isEmpty_false hc]
  simp only [Bool.or_self, Bool.false_eq_true, if_false, Bool.and_eq_true,
    beq_iff_eq, List.all_eq_true]
  constructor
  · rintro ⟨⟨hlen, hAB⟩, hBA⟩
    refine ⟨hu, hc, ?_⟩
    apply Finset.ext
    intro x
    rw [List.mem_toFinset, List.mem_toFinset,
      ← mem_jsSetList (l := mcmTokens u), ← mem_jsSetList (l := mcmTokens c)]
    constructor
    · intro hx
      exact List.elem_iff.mp (hAB x hx)
    · intro hx
      exact List.elem_iff.mp (hBA x hx)
  · rintro ⟨-, -, hfin⟩
    have hmem : ∀ x : List Char,
        x ∈ jsSetList (mcmTokens u) ↔ x ∈ jsSetList (mcmTokens c) := by
      intro x
      rw [mem_jsSetList, mem_jsSetList, ← List.mem_toFinset, hfin,
        List.mem_toFinset]
    refine ⟨⟨?_, ?_⟩, ?_⟩
    · rw [length_jsSetList, length_jsSetList, hfin]
    · intro x hx
      exact List.elem_iff.mpr ((hmem x).mp hx)
    · intro x hx
      exact List.elem_iff.mpr ((hmem x).mpr hx)

/-! ### Claim C8 -/

/-- C8, counterexample: the claim asserts
`checkAnswer("5 km", "5 miles")` is false, but the code accepts it:
both operands match the day-plus-month-word date pattern
(`5` + `km` / `5` + `miles`), and `matchDate` then returns true without
comparing components. -/
theorem c8_counterexample :
    checkAnswer (str "5 km") (str "5 miles") none = true ∧
    dateP2 (str "5 km") = true ∧ dateP2 (str "5 miles") = true := by
  refine ⟨by decide, by decide, by decide⟩

/-- C8, amended: `matchMeasurement` itself behaves as described — it
returns true iff both operands match `<number><optional-space><unit>`,
the numbers agree after comma removal, and the units share a variation
set; `matchMeasurement("5 km", "5 miles")` is false, and the two
`checkAnswer` examples hold.  But `checkAnswer("5 km", "5 miles")` is
true, through the date matcher (see the counterexample). -/
theorem c8_measurement :
    (∀ u c : List Char, matchMeasurement u c = true ↔
      ∃ un uu cn cu,
        measParse (normalizeString u) = some (un, uu) ∧
        measParse (normalizeString c) = some (cn, cu) ∧
        un.filter (fun ch => !(ch == ',')) =
          cn.filter (fun ch => !(ch == ',')) ∧
        ∃ row ∈ MEASUREMENT_VARIATIONS,
          uu.map jsLower ∈ row ∧ cu.map jsLower ∈ row) ∧
    checkAnswer (str "5km") (str "5 kilometres") none = true ∧
    checkAnswer (str "5km") (str "6km") none = false ∧
    matchMeasurement (str "5 km") (str "5 miles") = false ∧
    checkAnswer (str "5 km") (str "5 miles") none = true := by
  refine ⟨?_, by decide, by decide, by decide, by decide⟩
  intro u c
  unfold matchMeasurement
  cases hu : measParse (normalizeString u) with
  | none =>
    simp [hu]
  | some pu =>
    cases hc : measParse (normalizeString c) with
    | none => simp [hc]
    | some pc =>
      obtain ⟨un, uu⟩ := pu
      obtain ⟨cn, cu⟩ := pc
      simp only [Option.some.injEq, Prod.mk.injEq]
      constructor
      · intro h
        split at h
        · next hrow =>
          simp only [List.any_eq_true, Bool.and_eq_true, List.elem_iff] at hrow
          obtain ⟨row, hrowmem, h1, h2⟩ := hrow
          exact ⟨un, uu, cn, cu, ⟨rfl, rfl⟩, ⟨rfl, rfl⟩, by simpa using h,
            row, hrowmem, h1, h2⟩
        · exact absurd h (by simp)
      · rintro ⟨un', uu', cn', cu', ⟨rfl, rfl⟩, ⟨rfl, rfl⟩, hnum, row,
          hrowmem, h1, h2⟩
        rw [if_pos]
        · simpa using hnum
        · simp only [List.any_eq_true, Bool.and_eq_true, List.elem_iff]
          exact ⟨row, hrowmem, h1, h2⟩

/-! ### Claim C9 -/

/-- C9: the empty-input guard rejects only the empty string itself, not
strings that merely normalise to empty: any two non-empty all-whitespace
inputs both normalise to `""` and are accepted by the exact-match step
of `checkIeltsAnswer`. -/
theorem c9_whitespace_accepted (s t : List Char) (hs : s ≠ []) (ht : t ≠ [])
    (hws : ∀ c ∈ s, jsWsB c = true) (hwt : ∀ c ∈ t, jsWsB c = true) :
    checkIeltsAnswer s t = true := by
  have hslash : '/' ∉ t := by
    intro hmem
    have := hwt '/' hmem
    exact absurd this (by decide)
  rw [checkIeltsAnswer_single hs ht hslash]
  rw [normalizeString_of_all_ws hws, normalizeString_of_all_ws hwt]
  unfold checkOne
  simp

/-- Witness for C9: a single space against a double space. -/
theorem c9_witness : checkIeltsAnswer (str " ") (str "  ") = true :=
  c9_whitespace_accepted (str " ") (str "  ") (by decide) (by decide)
    (by decide) (by decide)

/-! ### Claim C10 -/

/-- C10, counterexample: phone-normalisation equality of two non-empty
strings does not always yield acceptance — a correct answer containing
the alternative delimiter `/` is split before any matcher runs, so
`"a/b"` is rejected against itself although the two sides are
phone-normal-identical. -/
theorem c10_counterexample :
    normalizePhone (str "a/b") = normalizePhone (str "a/b") ∧
    str "a/b" ≠ [] ∧
    checkIeltsAnswer (str "a/b") (str "a/b") = false := by
  refine ⟨rfl, by decide, by decide⟩

/-- C10, amended: for non-empty strings whose phone normalisations
(lower-case, strip whitespace, o/O to 0, expand double/triple) agree,
`checkIeltsAnswer` accepts, provided the correct answer does not
contain the alternative delimiter `/`. -/
theorem c10_phone_applies_everywhere (u c : List Char) (hu : u ≠ [])
    (hc : c ≠ []) (hslash : '/' ∉ c)
    (h : normalizePhone u = normalizePhone c) :
    checkIeltsAnswer u c = true := by
  rw [checkIeltsAnswer_single hu hc hslash]
  have hphone :
      matchPhoneNumber (normalizeString u) (normalizeString c) = true := by
    unfold matchPhoneNumber
    rw [normalizePhone_normalizeString, normalizePhone_normalizeString, h]
    simp
  unfold checkOne
  rw [hphone]
  simp

/-- Witness for C10: "h0tel" is accepted for "hotel". -/
theorem c10_witness : checkIeltsAnswer (str "h0tel") (str "hotel") = true :=
  c10_phone_applies_everywhere (str "h0tel") (str "hotel") (by decide)
    (by decide) (by decide) (by decide)

-- regression anchors for the regex-capture semantics and the remaining
-- spec examples
example : measParse (str "100") = some (str "10", str "0") := by decide
example : measParse (str "5km") = some (str "5", str "km") := by decide
example : currencyParse (str "50 dollars") = some ([], str "50", str "dollars") := by decide
example : currencyParse (str "$50") = some (str "$", str "50", []) := by decide
example : checkAnswer (str "double 5 5") (str "5 5 5") none = false := by decide
example : checkAnswer (str "triple 5") (str "555") none = true := by decide
example : checkAnswer (str "o123") (str "0123") none = true := by decide
example : checkAnswer (str "12") (str "twelve") none = true := by decide
example : checkAnswer (str "100") (str "one hundred") none = false := by decide
example : checkAnswer (str "13") (str "thirty") none = false := by decide
example : checkAnswer (str "5km") (str "5 kilometres") none = true := by decide
example : checkAnswer (str "5km") (str "6km") none = false := by decide
example : checkAnswer (str "5 km") (str "5 miles") none = true := by decide
example : matchMeasurement (str "5 km") (str "5 miles") = false := by decide
example : matchDate (str "march 5") (str "april 9") = true := by decide
example : checkMultipleChoiceMultiple (str "B,A") (str "A,B") = true := by decide
example : checkMultipleChoiceMultiple (str "A,A,B") (str "A,B") = true := by decide
example : checkMultipleChoiceMultiple (str "A,B,C") (str "A,B") = false := by decide
example : checkAnswer [] [] none = false := by decide
example : checkAnswer (str "a/b") (str "a/b") none = false := by decide
example : checkAnswer (str "s") (str "/b/c") none = true := by decide
example : checkAnswer (str "s") (str "b") none = false := by decide
example : checkAnswer (str "s") (str "c") none = false := by decide
example : checkIeltsAnswer (str " ") (str "  ") = true := by decide
example : checkIeltsAnswer (str "h0tel") (str "hotel") = true := by decide
example : checkAnswer (str "the beach") (str "beach") none = true := by decide
example : checkAnswer (str "cat") (str "cats") none = true := by decide
example : checkAnswer (str "well-known") (str "well known") none = true := by decide
example : checkAnswer (str "9am") (str "9 a.m.") none = true := by decide
example : checkAnswer (str "$50") (str "50 dollars") none = true := by decide
example : checkAnswer (str "£50") (str "$50") none = false := by decide

end Ielts
